import Mathlib

/-!
Verification of the two host-to-vendor chat adapters
(`Function_Anthropic4.py` and `Function_openAI_3.py`): the Anthropic
streamed-response normalizer, the image-count/size validation performed
during request translation, system-message extraction, payload
defaulting, and the error-to-string conversion of the buffered paths.

Python values flowing through the adapters are JSON-shaped; they are
modelled by the inductive `Json` below.  `json.loads` is modelled by
`jsonParseChars`, a fuel-indexed recursive-descent parser over the
character list of the input (the fuel is an upper bound on the
recursion depth; it never runs out on inputs the parser accepts).
Python integers/floats produced by `len(...) * 3 / 4` are modelled
exactly in units of quarter bytes (`3 * len`), which is exact because
every float arising here is a small dyadic rational.
-/

/-- JSON values as produced by `json.loads`.  Numbers keep their source
token, since no adapter code inspects a numeric value. -/
inductive Json where
  | null : Json
  | bool : Bool → Json
  | num : String → Json
  | str : String → Json
  | arr : List Json → Json
  | obj : List (String × Json) → Json

/-- Last-occurrence association lookup: `json.loads` keeps the last
duplicate key of an object, and `d[k]` on the resulting dict returns it. -/
def Json.fieldLast (kvs : List (String × Json)) (k : String) : Option Json :=
  (kvs.reverse.find? (fun p => p.1 == k)).map (fun p => p.2)

def isWsChar (c : Char) : Bool :=
  c == ' ' || c == '\t' || c == '\n' || c == '\r'

def skipWs : List Char → List Char
  | [] => []
  | c :: cs => if isWsChar c then skipWs cs else c :: cs

/-- The value of one hexadecimal digit (0-9, a-f, A-F). -/
def hexVal (c : Char) : Option Nat :=
  let n := c.toNat
  if 48 ≤ n ∧ n ≤ 57 then some (n - 48)
  else if 97 ≤ n ∧ n ≤ 102 then some (n - 87)
  else if 65 ≤ n ∧ n ≤ 70 then some (n - 55)
  else none

/-- Body of a JSON string after the opening quote: returns the decoded
content and the rest of the input after the closing quote. -/
def parseJStrAux : Nat → List Char → List Char → Option (List Char × List Char)
  | 0, _, _ => none
  | _ + 1, _, [] => none
  | f + 1, acc, c :: cs =>
    if c == '"' then some (acc.reverse, cs)
    else if c == '\\' then
      match cs with
      | [] => none
      | e :: cs2 =>
        if e == '"' then parseJStrAux f ('"' :: acc) cs2
        else if e == '\\' then parseJStrAux f ('\\' :: acc) cs2
        else if e == '/' then parseJStrAux f ('/' :: acc) cs2
        else if e == 'b' then parseJStrAux f ('\x08' :: acc) cs2
        else if e == 'f' then parseJStrAux f ('\x0c' :: acc) cs2
        else if e == 'n' then parseJStrAux f ('\n' :: acc) cs2
        else if e == 'r' then parseJStrAux f ('\x0d' :: acc) cs2
        else if e == 't' then parseJStrAux f ('\t' :: acc) cs2
        else if e == 'u' then
          match cs2 with
          | a :: b :: c2 :: d :: cs3 =>
            match hexVal a, hexVal b, hexVal c2, hexVal d with
            | some x, some y, some z, some w =>
              parseJStrAux f (Char.ofNat (((x * 16 + y) * 16 + z) * 16 + w) :: acc) cs3
            | _, _, _, _ => none
          | _ => none
        else none
    else if c.toNat < 32 then none
    else parseJStrAux f (c :: acc) cs

def takeDigits : List Char → List Char × List Char
  | [] => ([], [])
  | c :: cs =>
    if c.isDigit then
      let r := takeDigits cs
      (c :: r.1, r.2)
    else ([], c :: cs)

/-- JSON number token: `-?(0|[1-9][0-9]*)(.[0-9]+)?([eE][+-]?[0-9]+)?`. -/
def parseNumTok (cs0 : List Char) : Option (List Char × List Char) :=
  let (sign, cs1) :=
    match cs0 with
    | '-' :: cs => ([('-' : Char)], cs)
    | cs => ([], cs)
  match cs1 with
  | [] => none
  | c :: cs2 =>
    if c == '0' then
      match cs2 with
      | d :: _ =>
        if d.isDigit then none
        else some (sign ++ ['0'], cs2)
      | [] => some (sign ++ ['0'], cs2)
    else if c.isDigit then
      let (ds, cs3) := takeDigits cs2
      some (sign ++ c :: ds, cs3)
    else none

def parseFracTok (cs : List Char) : Option (List Char × List Char) :=
  match cs with
  | '.' :: cs1 =>
    match takeDigits cs1 with
    | ([], _) => none
    | (ds, cs2) => some ('.' :: ds, cs2)
  | _ => some ([], cs)

def parseExpTok (cs : List Char) : Option (List Char × List Char) :=
  match cs with
  | e :: cs1 =>
    if e == 'e' || e == 'E' then
      let (sg, cs2) :=
        match cs1 with
        | '+' :: r => (['+'], r)
        | '-' :: r => (['-'], r)
        | r => (([] : List Char), r)
      match takeDigits cs2 with
      | ([], _) => none
      | (ds, cs3) => some (e :: sg ++ ds, cs3)
    else some ([], e :: cs1)
  | [] => some ([], [])

def parseNumber (cs : List Char) : Option (Json × List Char) :=
  match parseNumTok cs with
  | none => none
  | some (intTok, cs1) =>
    match parseFracTok cs1 with
    | none => none
    | some (fracTok, cs2) =>
      match parseExpTok cs2 with
      | none => none
      | some (expTok, cs3) => some (Json.num ⟨intTok ++ fracTok ++ expTok⟩, cs3)

mutual

def parseVal : Nat → List Char → Option (Json × List Char)
  | 0, _ => none
  | f + 1, cs0 =>
    match skipWs cs0 with
    | [] => none
    | 't' :: 'r' :: 'u' :: 'e' :: rest => some (Json.bool true, rest)
    | 'f' :: 'a' :: 'l' :: 's' :: 'e' :: rest => some (Json.bool false, rest)
    | 'n' :: 'u' :: 'l' :: 'l' :: rest => some (Json.null, rest)
    | 'N' :: 'a' :: 'N' :: rest => some (Json.num "NaN", rest)
    | 'I' :: 'n' :: 'f' :: 'i' :: 'n' :: 'i' :: 't' :: 'y' :: rest =>
      some (Json.num "Infinity", rest)
    | '-' :: 'I' :: 'n' :: 'f' :: 'i' :: 'n' :: 'i' :: 't' :: 'y' :: rest =>
      some (Json.num "-Infinity", rest)
    | c :: cs =>
      if c == '"' then
        match parseJStrAux f [] cs with
        | some (content, rest) => some (Json.str ⟨content⟩, rest)
        | none => none
      else if c == '\x7b' then
        match skipWs cs with
        | '\x7d' :: rest => some (Json.obj [], rest)
        | cs2 => parseMembers f cs2 []
      else if c == '[' then
        match skipWs cs with
        | ']' :: rest => some (Json.arr [], rest)
        | cs2 => parseElems f cs2 []
      else if c == '-' || c.isDigit then parseNumber (c :: cs)
      else none

/-- Elements of a non-empty array, positioned at the start of a value. -/
def parseElems : Nat → List Char → List Json → Option (Json × List Char)
  | 0, _, _ => none
  | f + 1, cs, acc =>
    match parseVal f cs with
    | none => none
    | some (v, rest) =>
      match skipWs rest with
      | ',' :: rest2 => parseElems f rest2 (v :: acc)
      | ']' :: rest2 => some (Json.arr (v :: acc).reverse, rest2)
      | _ => none

/-- Members of a non-empty object, positioned at the start of a key. -/
def parseMembers : Nat → List Char → List (String × Json) → Option (Json × List Char)
  | 0, _, _ => none
  | f + 1, cs, acc =>
    match skipWs cs with
    | '"' :: cs1 =>
      match parseJStrAux f [] cs1 with
      | none => none
      | some (key, cs2) =>
        match skipWs cs2 with
        | ':' :: cs3 =>
          match parseVal f cs3 with
          | none => none
          | some (v, rest) =>
            match skipWs rest with
            | ',' :: rest2 => parseMembers f rest2 ((⟨key⟩, v) :: acc)
            | '\x7d' :: rest2 => some (Json.obj ((⟨key⟩, v) :: acc).reverse, rest2)
            | _ => none
        | _ => none
    | _ => none

end

/-- Model of `json.loads` applied to the string with character list `cs`. -/
def jsonParseChars (cs : List Char) : Option Json :=
  match parseVal (2 * cs.length + 2) cs with
  | none => none
  | some (v, rest) =>
    match skipWs rest with
    | [] => some v
    | _ => none

/-!
## Streamed response normalizer (`Pipe.stream_response`, Anthropic)

The generator iterates the response lines.  A non-empty line with the
`data: ` SSE marker has its payload parsed; `json.JSONDecodeError` and
`KeyError` are caught (the line is logged and skipped, keeping any
fragments already yielded), while a `TypeError` from subscripting a
non-dict propagates and aborts the generator.  `LineOut` records the
three possible outcomes of one loop iteration.
-/

inductive LineOut where
  | emit : List Json → LineOut
  | stop : LineOut
  | fatal : List Json → LineOut

/-- The `for content in data.get("content", [])` loop of the `message`
branch.  Entries are dicts indexed with `content["type"]`; a non-dict
entry raises `TypeError` (uncaught), a dict missing `"type"` or
(`"type" == "text"` and no `"text"`) raises `KeyError`, which is caught
after the earlier yields have already been delivered. -/
def msgContentLoop : List Json → List Json → LineOut
  | acc, [] => .emit acc.reverse
  | acc, e :: es =>
    match e with
    | .obj kvs =>
      match Json.fieldLast kvs "type" with
      | none => .emit acc.reverse
      | some (.str s) =>
        if s == "text" then
          match Json.fieldLast kvs "text" with
          | none => .emit acc.reverse
          | some t => msgContentLoop (t :: acc) es
        else msgContentLoop acc es
      | some _ => msgContentLoop acc es
    | _ => .fatal acc.reverse

/-- Iterating `data.get("content", [])` when its value is not a list:
Python iterates the characters of a string and the keys of a dict (both
are `str`, so `content["type"]` raises `TypeError` unless the iteration
is empty) and raises `TypeError` outright on non-iterables. -/
def messageBranch : Json → LineOut
  | .arr es => msgContentLoop [] es
  | .str s =>
    match s.data with
    | [] => .emit []
    | _ :: _ => .fatal []
  | .obj kvs =>
    match kvs with
    | [] => .emit []
    | _ :: _ => .fatal []
  | _ => .fatal []

/-- Dispatch on one parsed `data: ` event (`stream_response` lines
186-195).  `data["type"]` on a non-dict raises `TypeError` (fatal);
a dict missing `"type"` raises `KeyError` (caught, line skipped). -/
def processData (data : Json) : LineOut :=
  match data with
  | .obj kvs =>
    match Json.fieldLast kvs "type" with
    | none => .emit []
    | some (.str t) =>
      if t == "content_block_start" then
        match Json.fieldLast kvs "content_block" with
        | none => .emit []
        | some (.obj cb) =>
          match Json.fieldLast cb "text" with
          | none => .emit []
          | some txt => .emit [txt]
        | some _ => .fatal []
      else if t == "content_block_delta" then
        match Json.fieldLast kvs "delta" with
        | none => .emit []
        | some (.obj d) =>
          match Json.fieldLast d "text" with
          | none => .emit []
          | some txt => .emit [txt]
        | some _ => .fatal []
      else if t == "message_stop" then .stop
      else if t == "message" then
        messageBranch
          (match Json.fieldLast kvs "content" with
           | none => Json.arr []
           | some cv => cv)
      else .emit []
    | some _ => .emit []
  | _ => .fatal []

/-- The `line.startswith("data: ")` test together with `line[6:]`. -/
def dataPayload (cs : List Char) : Option (List Char) :=
  match cs with
  | 'd' :: 'a' :: 't' :: 'a' :: ':' :: ' ' :: rest => some rest
  | _ => none

/-- One iteration of the line loop: blank lines (`if line:`) and lines
without the `data: ` marker produce nothing; otherwise the payload is
parsed and dispatched (`json.JSONDecodeError` is caught). -/
def processChars (cs : List Char) : LineOut :=
  match dataPayload cs with
  | none => .emit []
  | some rest =>
    match jsonParseChars rest with
    | none => .emit []
    | some data => processData data

/-- The fragments yielded by `stream_response` over a line sequence,
paired with `true` when the generator aborted with an uncaught
`TypeError` (after delivering the fragments yielded before it). -/
def streamLines : List String → List Json × Bool
  | [] => ([], false)
  | l :: ls =>
    match processChars l.data with
    | .emit ys =>
      let r := streamLines ls
      (ys ++ r.1, r.2)
    | .stop => ([], false)
    | .fatal ys => (ys, true)

/-!
## Spec-side description of the streamed normalizer

`specData`/`specLine`/`specStream` restate, as a function, the
specification's words for the streamed mode: ignore blank and
non-`data: ` lines and unparseable payloads, yield the initial text of
`content_block_start`, the fragment of `content_block_delta`, the text
entries of `message`, terminate at `message_stop`, ignore every other
type, and skip events missing an expected field.
-/

inductive SpecKind where
  | yields : List Json → SpecKind
  | halt : SpecKind

def specFieldOf (j : Json) (k : String) : Option Json :=
  match j with
  | .obj kvs => Json.fieldLast kvs k
  | _ => none

def specTypeOf (j : Json) : Option String :=
  match specFieldOf j "type" with
  | some (.str t) => some t
  | _ => none

def specEntryText (e : Json) : Option Json :=
  match e with
  | .obj kvs =>
    match Json.fieldLast kvs "type" with
    | some (.str s) => if s == "text" then Json.fieldLast kvs "text" else none
    | _ => none
  | _ => none

def specData (j : Json) : SpecKind :=
  match specTypeOf j with
  | some t =>
    if t == "content_block_start" then
      .yields (Option.toList ((specFieldOf j "content_block").bind (fun cb => specFieldOf cb "text")))
    else if t == "content_block_delta" then
      .yields (Option.toList ((specFieldOf j "delta").bind (fun d => specFieldOf d "text")))
    else if t == "message_stop" then .halt
    else if t == "message" then
      .yields
        (match (specFieldOf j "content").getD (Json.arr []) with
         | .arr es => es.filterMap specEntryText
         | _ => [])
    else .yields []
  | none => .yields []

def specLine (l : String) : SpecKind :=
  match dataPayload l.data with
  | none => .yields []
  | some rest =>
    match jsonParseChars rest with
    | none => .yields []
    | some j => specData j

def specStream : List String → List Json
  | [] => []
  | l :: ls =>
    match specLine l with
    | .halt => []
    | .yields ys => ys ++ specStream ls

/-- A `message` content entry shaped so that the Python loop neither
raises `TypeError` nor `KeyError` on it. -/
def goodEntry (e : Json) : Bool :=
  match e with
  | .obj kvs =>
    match Json.fieldLast kvs "type" with
    | none => false
    | some (.str s) =>
      if s == "text" then (Json.fieldLast kvs "text").isSome else true
    | some _ => true
  | _ => false

/-- A parsed `data: ` payload shaped so that processing it raises no
uncaught `TypeError` and yields no partial `message` fragments: the
payload is a JSON object, a `content_block_start`/`content_block_delta`
carries its inner object (or omits it), and a `message` carries an
array of well-shaped entries (or omits it). -/
def goodJson (j : Json) : Bool :=
  match j with
  | .obj kvs =>
    match Json.fieldLast kvs "type" with
    | none => true
    | some (.str t) =>
      if t == "content_block_start" then
        match Json.fieldLast kvs "content_block" with
        | none => true
        | some (.obj _) => true
        | some _ => false
      else if t == "content_block_delta" then
        match Json.fieldLast kvs "delta" with
        | none => true
        | some (.obj _) => true
        | some _ => false
      else if t == "message" then
        match Json.fieldLast kvs "content" with
        | none => true
        | some (.arr es) => es.all goodEntry
        | some _ => false
      else true
    | some _ => true
  | _ => false

/-- A well-formed stream line: blank, without the `data: ` marker,
unparseable, or carrying a well-shaped payload. -/
def goodLine (l : String) : Bool :=
  match dataPayload l.data with
  | none => true
  | some rest =>
    match jsonParseChars rest with
    | none => true
    | some j => goodJson j

/-!
## Request translation (`Pipe.pipe`, Anthropic)

The host request's `messages` follow the data model of the spec: a
`role` string and a `content` that is either a plain string or an
ordered list of parts.  A part is a `text` part, an `image_url` part
(carrying `item["image_url"]["url"]`), or a part with any other
`"type"`, which the translation loop silently drops.
-/

inductive ContentItem where
  | text : String → ContentItem
  | image_url : String → ContentItem
  | other : ContentItem

inductive MsgContent where
  | str : String → MsgContent
  | parts : List ContentItem → MsgContent

structure ChatMessage where
  role : String
  content : MsgContent

inductive PyExn where
  | valueError : String → PyExn
  | keyError : String → PyExn
  | typeError : String → PyExn
  | requestException : String → PyExn
  | genericError : String → PyExn
deriving DecidableEq

/-- The forward loop of `extract_system_message`: every message with
role `system` overwrites the current system text, every other message
is appended to `other_messages`. -/
def extractLoop : Option MsgContent → List ChatMessage → List ChatMessage →
    Option MsgContent × List ChatMessage
  | sys, acc, [] => (sys, acc.reverse)
  | sys, acc, m :: ms =>
    if m.role == "system" then extractLoop (some m.content) acc ms
    else extractLoop sys (m :: acc) ms

def extract_system_message (messages : List ChatMessage) :
    Option MsgContent × List ChatMessage :=
  extractLoop none [] messages

inductive ImageSource where
  | base64 : String → String → ImageSource
  | url : String → ImageSource

/-- The `url.startswith("data:image")` test of `process_image`. -/
def isDataImage (cs : List Char) : Bool :=
  match cs with
  | 'd' :: 'a' :: 't' :: 'a' :: ':' :: 'i' :: 'm' :: 'a' :: 'g' :: 'e' :: _ => true
  | _ => false

/-- Python `s.split(",", 1)` when the separator occurs, `none` when it
does not (in which case the two-target unpacking raises `ValueError`). -/
def splitComma1 : List Char → Option (List Char × List Char)
  | [] => none
  | c :: cs =>
    if c == ',' then some ([], cs)
    else (splitComma1 cs).map (fun p => (c :: p.1, p.2))

/-- Characters of `s.split(sep)[0]`. -/
def takeUntil (sep : Char) : List Char → List Char
  | [] => []
  | c :: cs => if c == sep then [] else c :: takeUntil sep cs

/-- Characters of `s.split(sep)[1]` (the empty list when the separator
is missing; unreachable here because the callers guard on it). -/
def segAfterFirst (sep : Char) : List Char → List Char
  | [] => []
  | c :: cs => if c == sep then takeUntil sep cs else segAfterFirst sep cs

/-- `Pipe.process_image`: a url starting with `data:image` is split at
its first comma into the MIME prefix and the base64 text (no comma
makes the unpacking raise `ValueError`); the media type is
`mime_type.split(":")[1].split(";")[0]`.  Every other url is passed
through verbatim as a url source. -/
def process_image (u : String) : Except PyExn ImageSource :=
  if isDataImage u.data then
    match splitComma1 u.data with
    | none => .error (.valueError "not enough values to unpack (expected 2, got 1)")
    | some (mime, b64) =>
      .ok (.base64 ⟨takeUntil ';' (segAfterFirst ':' mime)⟩ ⟨b64⟩)
  else .ok (.url u)

def MAX_IMAGES_PER_CALL : Nat := 5

/-- `MAX_TOTAL_IMAGE_SIZE / MAX_IMAGES_PER_CALL` in quarter bytes:
`4 * (100 * 1024 * 1024 / 5)`.  An image's estimated decoded size
`len(data) * 3 / 4` exceeds the per-image cap exactly when
`3 * len(data)` exceeds this number (the Python float arithmetic is
exact on these dyadic values). -/
def perImageCap3 : Nat := 83886080

/-- `MAX_TOTAL_IMAGE_SIZE` in quarter bytes: `4 * 100 * 1024 * 1024`. -/
def totalCap3 : Nat := 419430400

def imageLimitError : PyExn :=
  .valueError "Maximum of 5 images per API call exceeded"

def perImageError : PyExn :=
  .valueError "Image size exceeds maximum allowed size per image"

def totalSizeError : PyExn :=
  .valueError "Total size of images exceeds 100.0 MB limit"

/-- Processing of one `image_url` part (`pipe` lines 101-130): check
the running count against the limit, convert the image, in the base64
case estimate the decoded size and check it against the per-image cap,
add the estimate (zero for url sources) to the running total and check
it against the total cap, and advance the count.  State is
`(image_count, total_image_size in quarter bytes)`. -/
def imageStep (u : String) (c t : Nat) : Except PyExn (ImageSource × Nat × Nat) :=
  if c ≥ MAX_IMAGES_PER_CALL then .error imageLimitError
  else
    match process_image u with
    | .error e => .error e
    | .ok (.base64 mt d) =>
      if 3 * d.data.length > perImageCap3 then .error perImageError
      else if t + 3 * d.data.length > totalCap3 then .error totalSizeError
      else .ok (.base64 mt d, c + 1, t + 3 * d.data.length)
    | .ok (.url w) =>
      if t + 0 > totalCap3 then .error totalSizeError
      else .ok (.url w, c + 1, t + 0)

inductive ProcPart where
  | text : String → ProcPart
  | image : ImageSource → ProcPart

structure ProcMessage where
  role : String
  content : List ProcPart

/-- The inner loop over the parts of one multi-part message: text parts
pass through, parts of any other type are dropped, image parts go
through `imageStep`. -/
def processItems : List ContentItem → Nat → Nat →
    Except PyExn (List ProcPart × Nat × Nat)
  | [], c, t => .ok ([], c, t)
  | .text s :: items, c, t =>
    (processItems items c t).map (fun r => (.text s :: r.1, r.2))
  | .other :: items, c, t => processItems items c t
  | .image_url u :: items, c, t =>
    match imageStep u c t with
    | .error e => .error e
    | .ok (src, c2, t2) =>
      (processItems items c2 t2).map (fun r => (.image src :: r.1, r.2))

/-- One message: a plain-string content is wrapped as a single text
part, a part list goes through the inner loop. -/
def processMessage (m : ChatMessage) (c t : Nat) :
    Except PyExn (ProcMessage × Nat × Nat) :=
  match m.content with
  | .str s => .ok ({ role := m.role, content := [.text s] }, c, t)
  | .parts items =>
    (processItems items c t).map (fun r => ({ role := m.role, content := r.1 }, r.2))

def processMessages : List ChatMessage → Nat → Nat →
    Except PyExn (List ProcMessage × Nat × Nat)
  | [], c, t => .ok ([], c, t)
  | m :: ms, c, t =>
    match processMessage m c t with
    | .error e => .error e
    | .ok (pm, c2, t2) =>
      (processMessages ms c2 t2).map (fun r => (pm :: r.1, r.2))

/-- The image urls of a part list, in processing order. -/
def itemUrls : List ContentItem → List String
  | [] => []
  | .image_url u :: items => u :: itemUrls items
  | _ :: items => itemUrls items

def contentUrls (m : ChatMessage) : List String :=
  match m.content with
  | .parts items => itemUrls items
  | .str _ => []

def messageUrls (ms : List ChatMessage) : List String :=
  (ms.map contentUrls).flatten

/-- The image-validation state machine restricted to the url sequence:
`processItems`/`processMessages` fail and thread `(count, total)`
exactly as this fold over the image urls does. -/
def foldUrls : List String → Nat → Nat → Except PyExn (Nat × Nat)
  | [], c, t => .ok (c, t)
  | u :: us, c, t =>
    match imageStep u c t with
    | .error e => .error e
    | .ok (_, c2, t2) => foldUrls us c2 t2

/-- An image url the validation accepts at any reachable state: either
not a `data:image` url, or one with a comma whose base64 text keeps the
estimated size within the per-image cap. -/
def wellSized (u : String) : Bool :=
  if isDataImage u.data then
    match splitComma1 u.data with
    | none => false
    | some (_, b64) => decide (3 * b64.length ≤ perImageCap3)
  else true

/-- A base64 image url whose estimated decoded size exceeds the
per-image cap. -/
def oversizedImage (u : String) : Bool :=
  if isDataImage u.data then
    match splitComma1 u.data with
    | none => false
    | some (_, b64) => decide (3 * b64.length > perImageCap3)
  else false

/-!
## Payload construction and the pipe operations
-/

structure AnthropicPayload where
  model : String
  messages : List ProcMessage
  max_tokens : Int
  temperature : Rat
  top_k : Rat
  top_p : Rat
  stop_sequences : List String
  system : Option MsgContent
  stream : Bool

/-- The adapter configuration (`Pipe.Valves`): the API key and
`MAX_TOTAL_TOKENS`, whose pydantic default `"4000"` is coerced to the
integer 4000. -/
structure Valves where
  ANTHROPIC_API_KEY : String
  MAX_TOTAL_TOKENS : Int

def defaultValves : Valves :=
  { ANTHROPIC_API_KEY := "", MAX_TOTAL_TOKENS := 4000 }

/-- The host request (`body`): messages, the namespace-qualified model
id, and the optional sampling/streaming parameters read with
`body.get(...)`. -/
structure RequestBody where
  messages : List ChatMessage
  model : String
  max_tokens : Option Int
  temperature : Option Rat
  top_k : Option Rat
  top_p : Option Rat
  stop : Option (List String)
  stream : Option Bool

/-- The characters after the first occurrence of `c`, or `none` when
`c` does not occur. -/
def dropThroughFirst (c : Char) : List Char → Option (List Char)
  | [] => none
  | d :: ds => if d == c then some ds else dropThroughFirst c ds

/-- `body["model"][body["model"].find(".") + 1 :]`: `find` returns the
index of the first `.`, and the slice keeps everything after it; when
there is no `.`, `find` returns `-1` and the slice starts at 0, so the
id passes through unchanged. -/
def vendorLocalId (s : String) : String :=
  match dropThroughFirst '.' s.data with
  | some rest => ⟨rest⟩
  | none => s

/-- Python truthiness of a message content (used by the
`if system_message` guard of the payload construction). -/
def truthyContent : MsgContent → Bool
  | .str s => !s.data.isEmpty
  | .parts l => !l.isEmpty

/-- The translation phase of `Pipe.pipe` (lines 87-150): extract the
system message, process the remaining messages, and build the payload
with the caller's sampling values or their defaults.  The API-key check
and the transport are outside this function. -/
def anthropicTranslate (valves : Valves) (body : RequestBody) :
    Except PyExn AnthropicPayload :=
  let er := extract_system_message body.messages
  match processMessages er.2 0 0 with
  | .error e => .error e
  | .ok (pms, _, _) =>
    .ok
      { model := vendorLocalId body.model
        messages := pms
        max_tokens := body.max_tokens.getD valves.MAX_TOTAL_TOKENS
        temperature := body.temperature.getD 0.8
        top_k := body.top_k.getD 40
        top_p := body.top_p.getD 0.9
        stop_sequences := body.stop.getD []
        system :=
          match er.1 with
          | some c => if truthyContent c then some c else none
          | none => none
        stream := body.stream.getD false }

/-- The image urls of a request, in processing order (the system
messages having been extracted first). -/
def requestImageUrls (body : RequestBody) : List String :=
  messageUrls (extract_system_message body.messages).2

/-- The outcome of one HTTP POST: a response with a status code, a
parsed JSON body (`response.json()`) and its streamed lines
(`response.iter_lines()` decoded), or a `requests.RequestException`. -/
inductive HttpResult where
  | success : Nat → Json → List String → HttpResult
  | failure : String → HttpResult

/-- Python truthiness of a number token: zero exactly when the mantissa
has no nonzero digit. -/
def numNonZero (raw : String) : Bool :=
  (raw.data.takeWhile (fun c => !(c == 'e') && !(c == 'E'))).any
    (fun c => '1' ≤ c && c ≤ '9')

def jsonTruthy : Json → Bool
  | .null => false
  | .bool b => b
  | .num raw => numNonZero raw
  | .str s => !s.data.isEmpty
  | .arr l => !l.isEmpty
  | .obj l => !l.isEmpty

def listStarts : List Char → List Char → Bool
  | [], _ => true
  | _ :: _, [] => false
  | p :: ps, c :: cs => p == c && listStarts ps cs

def hasSubList (pat : List Char) : List Char → Bool
  | [] => pat.isEmpty
  | c :: cs => listStarts pat (c :: cs) || hasSubList pat cs

/-- `Pipe.non_stream_response`: raise on a non-200 status, otherwise
evaluate `res["content"][0]["text"] if "content" in res and
res["content"] else ""` under Python semantics (`in` on a dict tests
keys, on a string tests substrings, on a list tests membership and
raises `TypeError` otherwise; subscripting a non-dict with a string or
a dict with `0` raises). -/
def non_stream_response (t : HttpResult) : Except PyExn Json :=
  match t with
  | .failure m => .error (.requestException m)
  | .success status res _ =>
    if status != 200 then
      .error (.genericError ("HTTP Error " ++ toString status))
    else
      match res with
      | .obj kvs =>
        match Json.fieldLast kvs "content" with
        | none => .ok (.str "")
        | some cv =>
          if jsonTruthy cv then
            match cv with
            | .arr [] => .ok (.str "")
            | .arr (first :: _) =>
              match first with
              | .obj fkvs =>
                match Json.fieldLast fkvs "text" with
                | none => .error (.keyError "text")
                | some tj => .ok tj
              | _ => .error (.typeError "first content entry is not a dict")
            | .obj _ => .error (.keyError "0")
            | _ => .error (.typeError "content is not subscriptable by 0")
          else .ok (.str "")
      | .str s =>
        if hasSubList "content".data s.data then
          .error (.typeError "string indices must be integers")
        else .ok (.str "")
      | .arr l =>
        if l.any (fun e => match e with | .str s => s == "content" | _ => false) then
          .error (.typeError "list indices must be integers")
        else .ok (.str "")
      | _ => .error (.typeError "argument of type is not iterable")

/-- What `Pipe.pipe` hands back to the host: a displayable value (the
normalized text or a rendered error string) or, in streamed mode, the
still-unconsumed generator over the eventual response. -/
inductive PipeValue where
  | text : Json → PipeValue
  | genStream : HttpResult → PipeValue

/-- The three `except` clauses of the Anthropic `pipe`:
`requests.RequestException` and `ValueError` render as `Error: ...`,
the final `except Exception` as `Unexpected error: ...`.  Every
modelled exception kind is an `Exception`, so the handler is total. -/
def renderAnthropicError : PyExn → String
  | .requestException m => "Error: " ++ m
  | .valueError m => "Error: " ++ m
  | .keyError m => "Unexpected error: " ++ m
  | .typeError m => "Unexpected error: " ++ m
  | .genericError m => "Unexpected error: " ++ m

/-- The full Anthropic `Pipe.pipe`: the API-key check, the translation,
and (in buffered mode) the transport and normalization, wrapped by the
exception handlers.  `transport` maps the payload to the HTTP outcome;
in streamed mode the generator is returned unconsumed, so the transport
result is packed into `PipeValue.genStream` without being examined. -/
def anthropicPipe (valves : Valves) (body : RequestBody)
    (transport : AnthropicPayload → HttpResult) : Except PyExn PipeValue :=
  let inner : Except PyExn PipeValue :=
    if valves.ANTHROPIC_API_KEY == "" then
      .error (.valueError "ANTHROPIC_API_KEY is not set. Please set it in your environment variables before making API calls.")
    else
      match anthropicTranslate valves body with
      | .error e => .error e
      | .ok payload =>
        if body.stream.getD false then .ok (.genStream (transport payload))
        else
          match non_stream_response (transport payload) with
          | .error e => .error e
          | .ok j => .ok (.text j)
  match inner with
  | .ok v => .ok v
  | .error e => .ok (.text (.str (renderAnthropicError e)))

/-!
## The OpenAI adapter (`Function_openAI_3.py`)
-/

structure OpenAIValves where
  OPENAI_API_BASE_URL : String
  OPENAI_API_KEY : String

/-- The host request seen by the OpenAI `pipe`.  Only the fields the
adapter reads are modelled; every other caller field passes through to
the payload unmodified. -/
structure OpenAIBody where
  model : String
  stream : Option Bool

structure OpenAIPayload where
  model : String
  stream : Option Bool

/-- `payload = \x7b**body, "model": model_id\x7d`. -/
def openaiPayloadOf (body : OpenAIBody) : OpenAIPayload :=
  { model := vendorLocalId body.model, stream := body.stream }

inductive OpenAIValue where
  | text : String → OpenAIValue
  | json : Json → OpenAIValue
  | lines : List String → OpenAIValue

def pyExnMessage : PyExn → String
  | .requestException m => m
  | .valueError m => m
  | .keyError m => m
  | .typeError m => m
  | .genericError m => m

/-- The OpenAI `Pipe.pipe`: the missing-key check raises BEFORE the
`try` block, so that exception propagates to the host; inside the
`try`, transport failures and `raise_for_status` (status ≥ 400) are
caught by `except Exception` and rendered as an `Error: ...` string;
streamed mode hands back the raw decoded lines. -/
def openaiPipe (valves : OpenAIValves) (body : OpenAIBody)
    (transport : OpenAIPayload → HttpResult) : Except PyExn OpenAIValue :=
  if valves.OPENAI_API_KEY == "" then
    .error (.genericError "OPENAI_API_KEY not provided by the user.")
  else
    let inner : Except PyExn OpenAIValue :=
      match transport (openaiPayloadOf body) with
      | .failure m => .error (.requestException m)
      | .success status resJson linesOut =>
        if status ≥ 400 then .error (.requestException ("HTTP Error " ++ toString status))
        else if body.stream.getD false then .ok (.lines linesOut)
        else .ok (.json resJson)
    match inner with
    | .ok v => .ok v
    | .error e => .ok (.text ("Error: " ++ pyExnMessage e))

/-!
## Spec-level descriptions and concrete inputs used by the theorems
-/

/-- The content of the last message with role `system`, if any (the
specification's "last write wins"). -/
def lastSystemContent (ms : List ChatMessage) : Option MsgContent :=
  (ms.reverse.find? (fun m => m.role == "system")).map (fun m => m.content)

/-- Forgets the processed parts, keeping the validation outcome and the
`(count, total)` state. -/
def stateOf {α : Type} : Except PyExn (α × Nat × Nat) → Except PyExn (Nat × Nat)
  | .error e => .error e
  | .ok (_, c, t) => .ok (c, t)

/-- A parsed `data: ` event that the dispatch skips because of a
missing expected field: no `"type"`, or a
`content_block_start`/`content_block_delta` whose inner object is
missing or lacks `"text"`. -/
def missingFieldEvent (j : Json) : Bool :=
  match j with
  | .obj kvs =>
    match Json.fieldLast kvs "type" with
    | none => true
    | some (.str t) =>
      if t == "content_block_start" then
        match Json.fieldLast kvs "content_block" with
        | none => true
        | some (.obj cb) => (Json.fieldLast cb "text").isNone
        | some _ => false
      else if t == "content_block_delta" then
        match Json.fieldLast kvs "delta" with
        | none => true
        | some (.obj d) => (Json.fieldLast d "text").isNone
        | some _ => false
      else false
    | some _ => false
  | _ => false

/-- A `data: ` line that the normalizer skips: unparseable payload, or
a parsed event missing an expected field. -/
def skippedDataLine (l : String) : Bool :=
  match dataPayload l.data with
  | none => false
  | some rest =>
    match jsonParseChars rest with
    | none => true
    | some j => missingFieldEvent j

def exLine1 : String :=
  "data: \x7b\"type\":\"content_block_delta\",\"delta\":\x7b\"text\":\"He\"\x7d\x7d"

def exLine2 : String :=
  "data: \x7b\"type\":\"content_block_delta\",\"delta\":\x7b\"text\":\"llo\"\x7d\x7d"

def exLine3 : String := "data: \x7b\"type\":\"message_stop\"\x7d"

def exLine4 : String :=
  "data: \x7b\"type\":\"content_block_delta\",\"delta\":\x7b\"text\":\"ignored\"\x7d\x7d"

/-- The four-line streaming example of the specification. -/
def exampleLines : List String := [exLine1, exLine2, exLine3, exLine4]

/-- A `message`-type event carrying one text entry. -/
def msgTypeLine : String :=
  "data: \x7b\"type\":\"message\",\"content\":[\x7b\"type\":\"text\",\"text\":\"X\"\x7d]\x7d"

/-- A `message`-type event whose second entry lacks `"text"`: the loop
yields `A`, then the `KeyError` is caught and the line abandoned. -/
def partialMsgLine : String :=
  "data: \x7b\"type\":\"message\",\"content\":[\x7b\"type\":\"text\",\"text\":\"A\"\x7d,\x7b\"type\":\"text\"\x7d]\x7d"

/-- Base64 text of 27962028 characters: its estimated decoded size is
`27962028 * 3 / 4 = 20971521` bytes, one byte over the per-image cap. -/
def hugeB64 : List Char := List.replicate 27962028 'A'

/-- A `data:image` url whose base64 payload is `hugeB64`. -/
def hugeImageUrl : String :=
  ⟨'d' :: 'a' :: 't' :: 'a' :: ':' :: 'i' :: 'm' :: 'a' :: 'g' :: 'e' :: ',' :: hugeB64⟩

def plainImageUrl : String := "https://example.com/cat.png"

/-- A small well-formed base64 image url (payload `QUJD`, 3 bytes). -/
def smallDataUrl : String := "data:image/png;base64,QUJD"

/-- A request body holding the given messages and no optional caller
parameters. -/
def plainBody (messages : List ChatMessage) : RequestBody :=
  { messages := messages
    model := "anthropic.claude-3-opus-20240229"
    max_tokens := none
    temperature := none
    top_k := none
    top_p := none
    stop := none
    stream := none }

/-- Six url-sourced images in one message: over the count limit. -/
def sixUrlImagesBody : RequestBody :=
  plainBody [{ role := "user", content := .parts (List.replicate 6 (.image_url plainImageUrl)) }]

/-- Six images whose first is an oversized base64 image. -/
def overFirstBody : RequestBody :=
  plainBody [{ role := "user",
               content := .parts (.image_url hugeImageUrl :: List.replicate 5 (.image_url plainImageUrl)) }]

/-- Seven images: six url-sourced ones followed by an oversized base64
image (which the count limit stops before reaching). -/
def sevenBody : RequestBody :=
  plainBody [{ role := "user",
               content := .parts (List.replicate 6 (.image_url plainImageUrl) ++ [.image_url hugeImageUrl]) }]

/-- A single oversized base64 image. -/
def hugeOnlyBody : RequestBody :=
  plainBody [{ role := "user", content := .parts [.image_url hugeImageUrl] }]

/-- A text part and one small image: within every limit. -/
def okBody : RequestBody :=
  plainBody [{ role := "user", content := .parts [.text "hi", .image_url smallDataUrl] }]

/-- A system message with empty content followed by a user message. -/
def emptySystemBody : RequestBody :=
  plainBody [{ role := "system", content := .str "" }, { role := "user", content := .str "hi" }]

/-- A non-empty system message followed by a user message. -/
def sysBody : RequestBody :=
  plainBody [{ role := "system", content := .str "Be brief." }, { role := "user", content := .str "hi" }]

/-- The payload `sysBody` translates to under the default
configuration. -/
def sysPayload : AnthropicPayload :=
  { model := "claude-3-opus-20240229"
    messages := [{ role := "user", content := [.text "hi"] }]
    max_tokens := 4000
    temperature := 0.8
    top_k := 40
    top_p := 0.9
    stop_sequences := []
    system := some (.str "Be brief.")
    stream := false }

/-- OpenAI configuration with an API key present. -/
def openaiTestValves : OpenAIValves :=
  { OPENAI_API_BASE_URL := "https://api.openai.com/v1", OPENAI_API_KEY := "sk-test" }

/-- OpenAI configuration with no API key. -/
def openaiEmptyKeyValves : OpenAIValves :=
  { OPENAI_API_BASE_URL := "https://api.openai.com/v1", OPENAI_API_KEY := "" }

def openaiTestBody : OpenAIBody := { model := "openai.gpt-4o", stream := none }

/-- A transport that fails with a network error. -/
def failingTransport : OpenAIPayload → HttpResult := fun _ => .failure "connection refused"

/-- The buffered response `\x7b"content": []\x7d`. -/
def contentEmptyRes : Json := .obj [("content", .arr [])]

/-- The buffered response
`\x7b"content":[\x7b"type":"text","text":"ok"\x7d]\x7d`. -/
def contentOkRes : Json :=
  .obj [("content", .arr [.obj [("type", .str "text"), ("text", .str "ok")]])]

/-!
## Theorems
-/

theorem extractLoop_eq (ms : List ChatMessage) :
    ∀ (sys : Option MsgContent) (acc : List ChatMessage),
      extractLoop sys acc ms =
        ((lastSystemContent ms).or sys,
         acc.reverse ++ ms.filter (fun m => !(m.role == "system"))) := by
  induction ms with
  | nil => intro sys acc; simp [extractLoop, lastSystemContent]
  | cons m ms ih =>
    intro sys acc
    by_cases h : m.role == "system"
    · rw [show extractLoop sys acc (m :: ms) = extractLoop (some m.content) acc ms by
        simp [extractLoop, h]]
      rw [ih]
      have hl : lastSystemContent (m :: ms) = (lastSystemContent ms).or (some m.content) := by
        simp only [lastSystemContent, List.reverse_cons, List.find?_append]
        rw [@List.find?_cons_of_pos _ (fun x => x.role == "system") m [] h]
        cases ms.reverse.find? (fun x => x.role == "system") <;> simp
      rw [hl, Option.or_assoc]
      simp [List.filter_cons, h]
    · rw [show extractLoop sys acc (m :: ms) = extractLoop sys (m :: acc) ms by
        simp [extractLoop, h]]
      rw [ih]
      have hl : lastSystemContent (m :: ms) = lastSystemContent ms := by
        simp only [lastSystemContent, List.reverse_cons, List.find?_append]
        rw [@List.find?_cons_of_neg _ (fun x => x.role == "system") m [] h]
        simp
      rw [hl]
      simp [List.filter_cons, h]

theorem extract_eq (ms : List ChatMessage) :
    extract_system_message ms =
      (lastSystemContent ms, ms.filter (fun m => !(m.role == "system"))) := by
  have h := extractLoop_eq ms none []
  simpa [extract_system_message] using h

/-- C4: for every message list, system-message extraction returns the
content of the last message with role `system` (none when there is no
system message) and the non-system messages in their original order;
on the spec's example the system text is `B` and only the user message
is forwarded. -/
theorem system_message_extraction :
    (∀ messages : List ChatMessage,
        extract_system_message messages =
          (lastSystemContent messages,
           messages.filter (fun m => !(m.role == "system")))) ∧
    extract_system_message
        [{ role := "system", content := .str "A" },
         { role := "system", content := .str "B" },
         { role := "user", content := .str "hi" }] =
      (some (.str "B"), [{ role := "user", content := .str "hi" }]) :=
  ⟨extract_eq, rfl⟩

theorem stateOf_map {α β : Type} (e : Except PyExn (α × Nat × Nat)) (g : α → β) :
    stateOf (e.map (fun r => (g r.1, r.2))) = stateOf e := by
  cases e with
  | error e => rfl
  | ok r => rfl

theorem stateOf_processItems (items : List ContentItem) :
    ∀ c t, stateOf (processItems items c t) = foldUrls (itemUrls items) c t := by
  induction items with
  | nil => intro c t; rfl
  | cons item items ih =>
    intro c t
    cases item with
    | text s =>
      simp only [processItems, itemUrls]
      rw [stateOf_map (processItems items c t) (fun l => ProcPart.text s :: l)]
      exact ih c t
    | other =>
      simp only [processItems, itemUrls]
      exact ih c t
    | image_url u =>
      simp only [processItems, itemUrls, foldUrls]
      cases h : imageStep u c t with
      | error e => rfl
      | ok r =>
        obtain ⟨src, c2, t2⟩ := r
        simp only []
        rw [stateOf_map (processItems items c2 t2) (fun l => ProcPart.image src :: l)]
        exact ih c2 t2

theorem stateOf_processMessage (m : ChatMessage) (c t : Nat) :
    stateOf (processMessage m c t) = foldUrls (contentUrls m) c t := by
  cases hmc : m.content with
  | str s => simp [processMessage, contentUrls, hmc, stateOf, foldUrls]
  | parts items =>
    simp only [processMessage, contentUrls, hmc]
    rw [stateOf_map (processItems items c t)
      (fun l => ({ role := m.role, content := l } : ProcMessage))]
    exact stateOf_processItems items c t

theorem foldUrls_append (xs : List String) :
    ∀ ys c t, foldUrls (xs ++ ys) c t =
      (foldUrls xs c t).bind (fun s => foldUrls ys s.1 s.2) := by
  induction xs with
  | nil => intro ys c t; rfl
  | cons u xs ih =>
    intro ys c t
    simp only [List.cons_append, foldUrls]
    cases h : imageStep u c t with
    | error e => rfl
    | ok r =>
      obtain ⟨src, c2, t2⟩ := r
      exact ih ys c2 t2

theorem stateOf_processMessages (ms : List ChatMessage) :
    ∀ c t, stateOf (processMessages ms c t) = foldUrls (messageUrls ms) c t := by
  induction ms with
  | nil => intro c t; rfl
  | cons m ms ih =>
    intro c t
    have hurls : messageUrls (m :: ms) = contentUrls m ++ messageUrls ms := by
      simp [messageUrls]
    rw [hurls, foldUrls_append]
    rw [show foldUrls (contentUrls m) c t = stateOf (processMessage m c t) from
      (stateOf_processMessage m c t).symm]
    simp only [processMessages]
    cases h : processMessage m c t with
    | error e => rfl
    | ok r =>
      obtain ⟨pm, c2, t2⟩ := r
      show stateOf ((processMessages ms c2 t2).map (fun r => (pm :: r.1, r.2))) =
        foldUrls (messageUrls ms) c2 t2
      rw [stateOf_map (processMessages ms c2 t2) (fun l => pm :: l)]
      exact ih c2 t2

theorem anthropicTranslate_error_iff (valves : Valves) (body : RequestBody) (e : PyExn) :
    anthropicTranslate valves body = .error e ↔
      foldUrls (requestImageUrls body) 0 0 = .error e := by
  unfold requestImageUrls
  rw [← stateOf_processMessages]
  unfold anthropicTranslate
  cases h : processMessages (extract_system_message body.messages).2 0 0 with
  | error e2 => simp [h, stateOf]
  | ok r =>
    obtain ⟨pms, c, t⟩ := r
    simp [h, stateOf]

theorem anthropicTranslate_ok_of_foldUrls (valves : Valves) (body : RequestBody)
    (s : Nat × Nat) (h : foldUrls (requestImageUrls body) 0 0 = .ok s) :
    ∃ p, anthropicTranslate valves body = .ok p := by
  unfold requestImageUrls at h
  rw [← stateOf_processMessages] at h
  unfold anthropicTranslate
  cases hp : processMessages (extract_system_message body.messages).2 0 0 with
  | error e2 => rw [hp] at h; simp [stateOf] at h
  | ok r =>
    obtain ⟨pms, c, t⟩ := r
    simp only [hp]
    exact ⟨_, rfl⟩

theorem perImageCap3_mul_le {c : Nat} (h : c ≤ 5) : perImageCap3 * c ≤ totalCap3 := by
  calc perImageCap3 * c ≤ perImageCap3 * 5 := Nat.mul_le_mul_left _ h
    _ = totalCap3 := by norm_num [perImageCap3, totalCap3]

theorem imageStep_limit (u : String) (c t : Nat) (h : 5 ≤ c) :
    imageStep u c t = .error imageLimitError := by
  simp only [imageStep, MAX_IMAGES_PER_CALL]
  rw [if_pos h]

theorem process_image_url_kind (u : String) (hdi : isDataImage u.data = false) :
    process_image u = .ok (.url u) := by
  unfold process_image
  rw [hdi]
  simp

theorem process_image_base64_kind (u : String) (mime b64 : List Char)
    (hdi : isDataImage u.data = true) (hsp : splitComma1 u.data = some (mime, b64)) :
    process_image u = .ok (.base64 ⟨takeUntil ';' (segAfterFirst ':' mime)⟩ ⟨b64⟩) := by
  unfold process_image
  rw [hdi, hsp]
  simp

theorem imageStep_wellSized (u : String) (c t : Nat) (hc : c < 5)
    (hw : wellSized u = true) (ht : t ≤ perImageCap3 * c) :
    ∃ src sz, imageStep u c t = .ok (src, c + 1, t + sz) ∧ sz ≤ perImageCap3 := by
  simp only [imageStep, MAX_IMAGES_PER_CALL]
  rw [if_neg (by omega)]
  unfold wellSized at hw
  by_cases hdi : isDataImage u.data
  · rw [if_pos hdi] at hw
    cases hsp : splitComma1 u.data with
    | none => rw [hsp] at hw; simp at hw
    | some p =>
      obtain ⟨mime, b64⟩ := p
      rw [hsp] at hw
      simp only [decide_eq_true_eq] at hw
      rw [process_image_base64_kind u mime b64 hdi hsp]
      have h1 : t + 3 * b64.length ≤ perImageCap3 * (c + 1) := by
        rw [Nat.mul_succ]; omega
      have h2 : perImageCap3 * (c + 1) ≤ totalCap3 := perImageCap3_mul_le (by omega)
      refine ⟨.base64 ⟨takeUntil ';' (segAfterFirst ':' mime)⟩ ⟨b64⟩, 3 * b64.length, ?_, hw⟩
      show (if 3 * b64.length > perImageCap3 then (Except.error perImageError :
            Except PyExn (ImageSource × Nat × Nat))
          else if t + 3 * b64.length > totalCap3 then Except.error totalSizeError
          else Except.ok (_, c + 1, t + 3 * b64.length)) = _
      rw [if_neg (by omega), if_neg (by omega)]
  · rw [show isDataImage u.data = false from by simpa using hdi] at hw
    rw [process_image_url_kind u (by simpa using hdi)]
    have h2 : perImageCap3 * c ≤ totalCap3 := perImageCap3_mul_le (by omega)
    refine ⟨.url u, 0, ?_, by simp [perImageCap3]⟩
    show (if t + 0 > totalCap3 then (Except.error totalSizeError :
          Except PyExn (ImageSource × Nat × Nat))
        else Except.ok (.url u, c + 1, t + 0)) = _
    rw [if_neg (by omega)]

theorem imageStep_no_comma (u : String) (c t : Nat) (hc : c < 5)
    (hdi : isDataImage u.data = true) (hsp : splitComma1 u.data = none) :
    imageStep u c t =
      .error (.valueError "not enough values to unpack (expected 2, got 1)") := by
  simp only [imageStep, MAX_IMAGES_PER_CALL]
  rw [if_neg (by omega)]
  unfold process_image
  rw [hdi, hsp]
  rfl

theorem imageStep_oversized (u : String) (c t : Nat) (hc : c < 5)
    (ho : oversizedImage u = true) :
    imageStep u c t = .error perImageError := by
  unfold oversizedImage at ho
  by_cases hdi : isDataImage u.data
  · rw [if_pos hdi] at ho
    cases hsp : splitComma1 u.data with
    | none => rw [hsp] at ho; simp at ho
    | some p =>
      obtain ⟨mime, b64⟩ := p
      rw [hsp] at ho
      simp only [decide_eq_true_eq] at ho
      simp only [imageStep, MAX_IMAGES_PER_CALL]
      rw [if_neg (by omega)]
      rw [process_image_base64_kind u mime b64 hdi hsp]
      show (if 3 * b64.length > perImageCap3 then (Except.error perImageError :
            Except PyExn (ImageSource × Nat × Nat))
          else if t + 3 * b64.length > totalCap3 then Except.error totalSizeError
          else Except.ok (_, c + 1, t + 3 * b64.length)) = _
      rw [if_pos ho]
  · rw [if_neg hdi] at ho
    simp at ho

theorem imageStep_not_total (u : String) (c t : Nat) (hc : c ≤ 5)
    (ht : t ≤ perImageCap3 * c) :
    imageStep u c t ≠ .error totalSizeError := by
  by_cases h5 : 5 ≤ c
  · rw [imageStep_limit u c t h5]
    intro hcon
    injection hcon with he
    exact absurd he (by decide)
  · have hclt : c < 5 := by omega
    by_cases hw : wellSized u = true
    · obtain ⟨src, sz, hstep, _⟩ := imageStep_wellSized u c t hclt hw ht
      rw [hstep]
      simp
    · unfold wellSized at hw
      by_cases hdi : isDataImage u.data
      · rw [if_pos hdi] at hw
        cases hsp : splitComma1 u.data with
        | none =>
          rw [imageStep_no_comma u c t hclt hdi hsp]
          intro hcon
          injection hcon with he
          exact absurd he (by decide)
        | some p =>
          obtain ⟨mime, b64⟩ := p
          rw [hsp] at hw
          simp only [decide_eq_true_eq] at hw
          have ho : oversizedImage u = true := by
            unfold oversizedImage
            rw [if_pos hdi, hsp]
            simp only [decide_eq_true_eq]
            omega
          rw [imageStep_oversized u c t hclt ho]
          intro hcon
          injection hcon with he
          exact absurd he (by decide)
      · rw [if_neg hdi] at hw
        simp at hw

theorem imageStep_ok_state (u : String) (c t : Nat) (src : ImageSource) (c2 t2 : Nat)
    (h : imageStep u c t = .ok (src, c2, t2)) (ht : t ≤ perImageCap3 * c) :
    c2 = c + 1 ∧ c < 5 ∧ t2 ≤ perImageCap3 * c2 := by
  have hclt : c < 5 := by
    by_contra hge
    rw [imageStep_limit u c t (by omega)] at h
    exact absurd h (by simp)
  have hw : wellSized u = true := by
    by_contra hnw
    unfold wellSized at hnw
    by_cases hdi : isDataImage u.data
    · rw [if_pos hdi] at hnw
      cases hsp : splitComma1 u.data with
      | none =>
        rw [imageStep_no_comma u c t hclt hdi hsp] at h
        exact absurd h (by simp)
      | some p =>
        obtain ⟨mime, b64⟩ := p
        rw [hsp] at hnw
        simp only [decide_eq_true_eq] at hnw
        have ho : oversizedImage u = true := by
          unfold oversizedImage
          rw [if_pos hdi, hsp]
          simp only [decide_eq_true_eq]
          omega
        rw [imageStep_oversized u c t hclt ho] at h
        exact absurd h (by simp)
    · rw [if_neg hdi] at hnw
      simp at hnw
  obtain ⟨src2, sz, hstep, hsz⟩ := imageStep_wellSized u c t hclt hw ht
  rw [hstep] at h
  simp only [Except.ok.injEq, Prod.mk.injEq] at h
  obtain ⟨hsrc, hc2, ht2⟩ := h
  refine ⟨hc2.symm, hclt, ?_⟩
  rw [← hc2, ← ht2, Nat.mul_succ]
  omega

theorem foldUrls_ok (us : List String) :
    ∀ c t, (∀ u ∈ us, wellSized u = true) → c + us.length ≤ 5 →
      t ≤ perImageCap3 * c → ∃ s, foldUrls us c t = .ok s := by
  induction us with
  | nil => intro c t _ _ _; exact ⟨(c, t), rfl⟩
  | cons u us ih =>
    intro c t hw hc ht
    obtain ⟨src, sz, hstep, hsz⟩ :=
      imageStep_wellSized u c t (by simp at hc; omega) (hw u (by simp)) ht
    have ht2 : t + sz ≤ perImageCap3 * (c + 1) := by rw [Nat.mul_succ]; omega
    obtain ⟨s, hs⟩ := ih (c + 1) (t + sz) (fun v hv => hw v (by simp [hv]))
      (by simp at hc ⊢; omega) ht2
    refine ⟨s, ?_⟩
    simp only [foldUrls]
    rw [hstep]
    exact hs

theorem foldUrls_limit (us : List String) :
    ∀ c t, (∀ u ∈ us.take (5 - c), wellSized u = true) → c ≤ 5 →
      5 - c < us.length → t ≤ perImageCap3 * c →
      foldUrls us c t = .error imageLimitError := by
  induction us with
  | nil => intro c t _ _ h _; simp at h
  | cons u us ih =>
    intro c t hw hc hlen ht
    by_cases h5 : c = 5
    · subst h5
      simp only [foldUrls]
      rw [imageStep_limit u 5 t (le_refl 5)]
    · have hclt : c < 5 := by omega
      have hwu : wellSized u = true := by
        apply hw u
        rw [show 5 - c = (5 - (c + 1)) + 1 from by omega, List.take_succ_cons]
        simp
      obtain ⟨src, sz, hstep, hsz⟩ := imageStep_wellSized u c t hclt hwu ht
      simp only [foldUrls]
      rw [hstep]
      have harg : ∀ v ∈ us.take (5 - (c + 1)), wellSized v = true := by
        intro v hv
        apply hw v
        rw [show 5 - c = (5 - (c + 1)) + 1 from by omega, List.take_succ_cons]
        exact List.mem_cons_of_mem u hv
      exact ih (c + 1) (t + sz) harg (by omega) (by simp at hlen ⊢; omega)
        (by rw [Nat.mul_succ]; omega)

theorem foldUrls_first_oversized (pre : List String) :
    ∀ (u : String) (post : List String) (c t : Nat),
      (∀ v ∈ pre, wellSized v = true) → c + pre.length ≤ 4 →
      t ≤ perImageCap3 * c → oversizedImage u = true →
      foldUrls (pre ++ u :: post) c t = .error perImageError := by
  induction pre with
  | nil =>
    intro u post c t _ hc ht ho
    simp only [List.nil_append, foldUrls]
    rw [imageStep_oversized u c t (by simp at hc; omega) ho]
  | cons v pre ih =>
    intro u post c t hwell hc ht ho
    obtain ⟨src, sz, hstep, hsz⟩ :=
      imageStep_wellSized v c t (by simp at hc; omega) (hwell v (by simp)) ht
    simp only [List.cons_append, foldUrls]
    rw [hstep]
    exact ih u post (c + 1) (t + sz) (fun w hw => hwell w (by simp [hw]))
      (by simp at hc ⊢; omega) (by rw [Nat.mul_succ]; omega) ho

theorem foldUrls_never_total (us : List String) :
    ∀ c t, c ≤ 5 → t ≤ perImageCap3 * c →
      foldUrls us c t ≠ .error totalSizeError := by
  induction us with
  | nil => intro c t _ _ h; simp [foldUrls] at h
  | cons u us ih =>
    intro c t hc ht
    simp only [foldUrls]
    cases hstep : imageStep u c t with
    | error e =>
      intro hcon
      injection hcon with he
      subst he
      exact imageStep_not_total u c t hc ht hstep
    | ok r =>
      obtain ⟨src, c2, t2⟩ := r
      obtain ⟨hc2, hclt, ht2⟩ := imageStep_ok_state u c t src c2 t2 hstep ht
      exact ih c2 t2 (by omega) ht2

theorem foldUrls_url_only (us : List String) :
    ∀ c t e, (∀ u ∈ us, isDataImage u.data = false) → t ≤ totalCap3 →
      foldUrls us c t = .error e → e = imageLimitError := by
  induction us with
  | nil => intro c t e _ _ h; simp [foldUrls] at h
  | cons u us ih =>
    intro c t e hurl ht h
    simp only [foldUrls] at h
    by_cases h5 : c ≥ 5
    · rw [imageStep_limit u c t h5] at h
      injection h with he
      exact he.symm
    · have hstep : imageStep u c t = .ok (.url u, c + 1, t + 0) := by
        simp only [imageStep, MAX_IMAGES_PER_CALL]
        rw [if_neg h5]
        rw [process_image_url_kind u (hurl u (by simp))]
        show (if t + 0 > totalCap3 then (Except.error totalSizeError :
              Except PyExn (ImageSource × Nat × Nat))
            else Except.ok (.url u, c + 1, t + 0)) = _
        rw [if_neg (by omega)]
      rw [hstep] at h
      exact ih (c + 1) (t + 0) e (fun v hv => hurl v (by simp [hv])) (by omega) h

theorem oversized_huge : oversizedImage hugeImageUrl = true := by
  have hl : hugeB64.length = 27962028 := by
    rw [show hugeB64 = List.replicate 27962028 'A' from rfl]
    simp only [List.length_replicate]
  have hdi : isDataImage hugeImageUrl.data = true := rfl
  have hsp : splitComma1 hugeImageUrl.data =
      some (['d', 'a', 't', 'a', ':', 'i', 'm', 'a', 'g', 'e'], hugeB64) := rfl
  unfold oversizedImage
  rw [hdi, if_pos (Eq.refl true), hsp]
  show decide (3 * hugeB64.length > perImageCap3) = true
  rw [hl]
  rfl

/-- C2 (amended): a request with more than 5 image parts whose first 5
images pass the per-image checks fails with the image-limit error, and
the pipe's result is then independent of the transport (no HTTP call is
observable); a request with at most 5 image parts, all well formed and
within the per-image size cap, translates successfully.  (As stated the
claim is refuted by `anthropic_image_limit_counterexample`: an earlier
size violation preempts the image-limit error.) -/
theorem anthropic_image_limit :
    (∀ (valves : Valves) (body : RequestBody),
        5 < (requestImageUrls body).length →
        ((requestImageUrls body).take 5).all wellSized = true →
        anthropicTranslate valves body = .error imageLimitError ∧
        ∀ t1 t2, anthropicPipe valves body t1 = anthropicPipe valves body t2) ∧
    (∀ (valves : Valves) (body : RequestBody),
        (requestImageUrls body).length ≤ 5 →
        (requestImageUrls body).all wellSized = true →
        ∃ p, anthropicTranslate valves body = .ok p) := by
  constructor
  · intro valves body hlen hall
    have htr : anthropicTranslate valves body = .error imageLimitError := by
      rw [anthropicTranslate_error_iff]
      apply foldUrls_limit (requestImageUrls body) 0 0
      · simpa [List.all_eq_true] using hall
      · omega
      · simpa using hlen
      · simp
    refine ⟨htr, ?_⟩
    intro t1 t2
    unfold anthropicPipe
    by_cases hk : valves.ANTHROPIC_API_KEY == ""
    · simp [hk]
    · simp [hk, htr]
  · intro valves body hlen hall
    obtain ⟨s, hs⟩ := foldUrls_ok (requestImageUrls body) 0 0
      (by simpa [List.all_eq_true] using hall) (by simpa using hlen) (by simp)
    exact anthropicTranslate_ok_of_foldUrls valves body s hs

/-- C2 counterexample: `overFirstBody` has 6 image parts (more than 5),
yet translation fails with the per-image size error, not the image-limit
error, because its first image is oversized. -/
theorem anthropic_image_limit_counterexample :
    5 < (requestImageUrls overFirstBody).length ∧
    anthropicTranslate defaultValves overFirstBody = .error perImageError ∧
    perImageError ≠ imageLimitError := by
  have hurls : requestImageUrls overFirstBody =
      hugeImageUrl :: List.replicate 5 plainImageUrl := rfl
  refine ⟨by rw [hurls]; simp, ?_, by decide⟩
  rw [anthropicTranslate_error_iff, hurls]
  exact foldUrls_first_oversized [] hugeImageUrl (List.replicate 5 plainImageUrl) 0 0
    (by simp) (by simp) (by simp) oversized_huge

theorem anthropic_image_limit_witness :
    (5 < (requestImageUrls sixUrlImagesBody).length ∧
      ((requestImageUrls sixUrlImagesBody).take 5).all wellSized = true ∧
      anthropicTranslate defaultValves sixUrlImagesBody = .error imageLimitError) ∧
    ((requestImageUrls okBody).length ≤ 5 ∧
      (requestImageUrls okBody).all wellSized = true ∧
      ∃ p, anthropicTranslate defaultValves okBody = .ok p) := by
  refine ⟨⟨by decide, by decide, ?_⟩, ⟨by decide, by decide, ?_⟩⟩
  · exact (anthropic_image_limit.1 defaultValves sixUrlImagesBody (by decide) (by decide)).1
  · exact anthropic_image_limit.2 defaultValves okBody (by decide) (by decide)

/-- C3 (amended): an oversized base64 image preceded only by acceptable
images (and at a position the count limit has not yet cut off) makes
translation fail with the per-image size error; the total-size error is
unreachable on every input (at most 5 images are accepted, each of
estimated size at most 20 MiB, so the strict 100 MiB total check never
fires); a request whose image urls are all non-`data:image` (url-kind)
can only fail with the image-limit error - url images contribute zero
to the size accounting.  (As stated the claim is refuted by
`anthropic_image_size_counterexample`: the image-limit error preempts
the per-image error for an oversized 7th image.) -/
theorem anthropic_image_size :
    (∀ (valves : Valves) (body : RequestBody) (pre : List String) (u : String)
        (post : List String),
        requestImageUrls body = pre ++ u :: post →
        pre.length ≤ 4 → pre.all wellSized = true → oversizedImage u = true →
        anthropicTranslate valves body = .error perImageError) ∧
    (∀ (valves : Valves) (body : RequestBody),
        anthropicTranslate valves body ≠ .error totalSizeError) ∧
    (∀ (valves : Valves) (body : RequestBody) (e : PyExn),
        (requestImageUrls body).all (fun u => !isDataImage u.data) = true →
        anthropicTranslate valves body = .error e → e = imageLimitError) := by
  refine ⟨?_, ?_, ?_⟩
  · intro valves body pre u post hurls hlen hwell ho
    rw [anthropicTranslate_error_iff, hurls]
    exact foldUrls_first_oversized pre u post 0 0
      (by simpa [List.all_eq_true] using hwell) (by omega) (by simp) ho
  · intro valves body hcon
    rw [anthropicTranslate_error_iff] at hcon
    exact foldUrls_never_total (requestImageUrls body) 0 0 (by omega) (by simp) hcon
  · intro valves body e hurl htr
    rw [anthropicTranslate_error_iff] at htr
    refine foldUrls_url_only (requestImageUrls body) 0 0 e ?_ (Nat.zero_le _) htr
    intro u hu
    have := (List.all_eq_true.mp hurl) u hu
    simpa using this

/-- C3 counterexample: `sevenBody` contains an oversized base64 image
(the 7th), yet translation fails with the image-limit error rather than
the per-image size error, because the count limit fires first. -/
theorem anthropic_image_size_counterexample :
    oversizedImage hugeImageUrl = true ∧
    anthropicTranslate defaultValves sevenBody = .error imageLimitError ∧
    imageLimitError ≠ perImageError :=
  ⟨oversized_huge, rfl, by decide⟩

theorem anthropic_image_size_witness :
    (requestImageUrls hugeOnlyBody = [] ++ hugeImageUrl :: [] ∧
      ([] : List String).length ≤ 4 ∧ ([] : List String).all wellSized = true ∧
      oversizedImage hugeImageUrl = true) ∧
    anthropicTranslate defaultValves hugeOnlyBody = .error perImageError :=
  ⟨⟨rfl, by decide, rfl, oversized_huge⟩,
    anthropic_image_size.1 defaultValves hugeOnlyBody [] hugeImageUrl [] rfl
      (by decide) rfl oversized_huge⟩

/-- C6 (amended): every fatal error in the Anthropic pipe - buffered or
not - is caught and returned as a displayable value, never propagated
as an exception; the OpenAI pipe behaves the same once its API key is
configured, but its missing-key check raises before the protected
region (see `openai_missing_key_counterexample`). -/
theorem buffered_errors_returned_as_strings :
    (∀ (valves : Valves) (body : RequestBody)
        (transport : AnthropicPayload → HttpResult),
        ∃ v, anthropicPipe valves body transport = .ok v) ∧
    (∀ (valves : OpenAIValves) (body : OpenAIBody)
        (transport : OpenAIPayload → HttpResult),
        valves.OPENAI_API_KEY ≠ "" →
        ∃ v, openaiPipe valves body transport = .ok v) := by
  constructor
  · intro valves body transport
    simp only [anthropicPipe]
    split
    · exact ⟨_, rfl⟩
    · exact ⟨_, rfl⟩
  · intro valves body transport hk
    simp only [openaiPipe]
    rw [if_neg (by simpa using hk)]
    split
    · exact ⟨_, rfl⟩
    · exact ⟨_, rfl⟩

theorem buffered_errors_returned_as_strings_witness :
    openaiTestValves.OPENAI_API_KEY ≠ "" ∧
    (∃ v, openaiPipe openaiTestValves openaiTestBody failingTransport = .ok v) :=
  ⟨by decide, buffered_errors_returned_as_strings.2 _ _ _ (by decide)⟩

/-- C6 counterexample: with an empty API key the OpenAI pipe raises an
exception to the host (the check precedes the `try` block) instead of
returning an error string. -/
theorem openai_missing_key_counterexample :
    openaiPipe openaiEmptyKeyValves openaiTestBody failingTransport =
      .error (.genericError "OPENAI_API_KEY not provided by the user.") := rfl

theorem dropThroughFirst_no_dot (l : List Char) (h : ∀ c ∈ l, ¬ c = '.') :
    dropThroughFirst '.' l = none := by
  induction l with
  | nil => rfl
  | cons c cs ih =>
    simp only [dropThroughFirst]
    rw [if_neg (by simpa using h c (by simp))]
    exact ih (fun d hd => h d (by simp [hd]))

theorem dropThroughFirst_append (pre post : List Char) (h : ∀ c ∈ pre, ¬ c = '.') :
    dropThroughFirst '.' (pre ++ '.' :: post) = some post := by
  induction pre with
  | nil => simp [dropThroughFirst]
  | cons c cs ih =>
    simp only [List.cons_append, dropThroughFirst]
    rw [if_neg (by simpa using h c (by simp))]
    exact ih (fun d hd => h d (by simp [hd]))

/-- C7: in both adapters the vendor-local model id is the caller's id
with everything up to and including the first `.` removed, and an id
with no `.` passes through unchanged; the spec's example id maps to
`claude-3-opus-20240229`. -/
theorem vendor_local_model_id :
    (∀ s : String, (∀ c ∈ s.data, ¬ c = '.') → vendorLocalId s = s) ∧
    (∀ (s : String) (pre post : List Char),
        s.data = pre ++ '.' :: post → (∀ c ∈ pre, ¬ c = '.') →
        vendorLocalId s = ⟨post⟩) ∧
    (∀ (valves : Valves) (body : RequestBody) (p : AnthropicPayload),
        anthropicTranslate valves body = .ok p → p.model = vendorLocalId body.model) ∧
    (∀ body : OpenAIBody, (openaiPayloadOf body).model = vendorLocalId body.model) ∧
    vendorLocalId "anthropic.claude-3-opus-20240229" = "claude-3-opus-20240229" := by
  refine ⟨?_, ?_, ?_, fun _ => rfl, rfl⟩
  · intro s h
    unfold vendorLocalId
    rw [dropThroughFirst_no_dot s.data h]
  · intro s pre post hdata h
    unfold vendorLocalId
    rw [hdata, dropThroughFirst_append pre post h]
  · intro valves body p h
    simp only [anthropicTranslate] at h
    cases hp : processMessages (extract_system_message body.messages).2 0 0 with
    | error e => rw [hp] at h; exact absurd h (by simp)
    | ok r =>
      obtain ⟨pms, c, t⟩ := r
      rw [hp] at h
      injection h with h2
      rw [← h2]

theorem vendor_local_model_id_witness :
    (("a.b" : String).data = ['a'] ++ '.' :: ['b'] ∧ (∀ c ∈ ['a'], ¬ c = '.')) ∧
    vendorLocalId "a.b" = ⟨['b']⟩ :=
  ⟨⟨rfl, by decide⟩, vendor_local_model_id.2.1 "a.b" ['a'] ['b'] rfl (by decide)⟩

/-- C8 (amended): a successful translation under the default
configuration carries the caller's sampling values or the defaults
`max_tokens = 4000`, `temperature = 0.8`, `top_k = 40`, `top_p = 0.9`,
`stop_sequences = []`, `stream = false`; the system field holds the
last system message's content when that content is truthy (non-empty),
and is absent otherwise - in particular also absent when a system
message was present but empty (see
`anthropic_empty_system_counterexample`). -/
theorem anthropic_payload_defaults :
    ∀ (key : String) (body : RequestBody) (p : AnthropicPayload),
      anthropicTranslate { ANTHROPIC_API_KEY := key, MAX_TOTAL_TOKENS := 4000 } body =
        .ok p →
      p.max_tokens = body.max_tokens.getD 4000 ∧
      p.temperature = body.temperature.getD 0.8 ∧
      p.top_k = body.top_k.getD 40 ∧
      p.top_p = body.top_p.getD 0.9 ∧
      p.stop_sequences = body.stop.getD [] ∧
      p.stream = body.stream.getD false ∧
      p.system = (match lastSystemContent body.messages with
                  | some c => if truthyContent c then some c else none
                  | none => none) := by
  intro key body p h
  simp only [anthropicTranslate] at h
  cases hp : processMessages (extract_system_message body.messages).2 0 0 with
  | error e => rw [hp] at h; exact absurd h (by simp)
  | ok r =>
    obtain ⟨pms, c, t⟩ := r
    rw [hp] at h
    injection h with h2
    subst h2
    refine ⟨rfl, rfl, rfl, rfl, rfl, rfl, ?_⟩
    rw [show (extract_system_message body.messages).1 = lastSystemContent body.messages
      from by rw [extract_eq]]

/-- C8 counterexample: `emptySystemBody` contains a system message, yet
the payload carries no system field, because the empty content is
falsy. -/
theorem anthropic_empty_system_counterexample :
    (emptySystemBody.messages.filter (fun m => m.role == "system")).length = 1 ∧
    (anthropicTranslate defaultValves emptySystemBody).map (fun p => p.system) =
      .ok none :=
  ⟨rfl, rfl⟩

theorem anthropic_payload_defaults_witness :
    anthropicTranslate { ANTHROPIC_API_KEY := "k", MAX_TOTAL_TOKENS := 4000 } sysBody =
      .ok sysPayload ∧
    (sysPayload.max_tokens = 4000 ∧ sysPayload.stream = false ∧
      sysPayload.system = some (.str "Be brief.")) := by
  refine ⟨rfl, ?_⟩
  have h := anthropic_payload_defaults "k" sysBody sysPayload rfl
  exact ⟨h.1, h.2.2.2.2.2.1, h.2.2.2.2.2.2.trans rfl⟩

theorem non_stream_response_obj (kvs : List (String × Json)) (lines : List String) :
    non_stream_response (.success 200 (.obj kvs) lines) =
      (match Json.fieldLast kvs "content" with
       | none => .ok (.str "")
       | some cv =>
         if jsonTruthy cv then
           match cv with
           | .arr [] => .ok (.str "")
           | .arr (first :: _) =>
             match first with
             | .obj fkvs =>
               match Json.fieldLast fkvs "text" with
               | none => .error (.keyError "text")
               | some tj => .ok tj
             | _ => .error (.typeError "first content entry is not a dict")
           | .obj _ => .error (.keyError "0")
           | _ => .error (.typeError "content is not subscriptable by 0")
         else .ok (.str "")) := rfl

/-- C9: with a 200 status, the buffered normalizer returns the empty
string when the response object has no `content` key or an empty
`content` array, and the `text` of the first content block when the
array is non-empty and its first block carries one; the two concrete
responses of the spec normalize to the empty string and to `ok`. -/
theorem anthropic_buffered_normalization :
    (∀ (kvs : List (String × Json)) (lines : List String),
        Json.fieldLast kvs "content" = none →
        non_stream_response (.success 200 (.obj kvs) lines) = .ok (.str "")) ∧
    (∀ (kvs : List (String × Json)) (lines : List String),
        Json.fieldLast kvs "content" = some (.arr []) →
        non_stream_response (.success 200 (.obj kvs) lines) = .ok (.str "")) ∧
    (∀ (kvs fkvs : List (String × Json)) (lines : List String) (rest : List Json)
        (t : Json),
        Json.fieldLast kvs "content" = some (.arr (.obj fkvs :: rest)) →
        Json.fieldLast fkvs "text" = some t →
        non_stream_response (.success 200 (.obj kvs) lines) = .ok t) ∧
    non_stream_response (.success 200 contentEmptyRes []) = .ok (.str "") ∧
    non_stream_response (.success 200 contentOkRes []) = .ok (.str "ok") := by
  refine ⟨?_, ?_, ?_, rfl, rfl⟩
  · intro kvs lines h
    rw [non_stream_response_obj, h]
  · intro kvs lines h
    rw [non_stream_response_obj, h]
    rfl
  · intro kvs fkvs lines rest t h ht
    rw [non_stream_response_obj, h]
    show (match Json.fieldLast fkvs "text" with
          | none => (Except.error (PyExn.keyError "text") : Except PyExn Json)
          | some tj => Except.ok tj) = Except.ok t
    rw [ht]

theorem anthropic_buffered_normalization_witness :
    (Json.fieldLast [("content",
        Json.arr [Json.obj [("type", Json.str "text"), ("text", Json.str "ok")]])]
        "content" =
      some (.arr (.obj [("type", Json.str "text"), ("text", Json.str "ok")] :: [])) ∧
      Json.fieldLast [("type", Json.str "text"), ("text", Json.str "ok")] "text" =
        some (Json.str "ok")) ∧
    non_stream_response (.success 200 (.obj [("content",
        Json.arr [Json.obj [("type", Json.str "text"), ("text", Json.str "ok")]])]) []) =
      .ok (.str "ok") :=
  ⟨⟨rfl, rfl⟩,
    anthropic_buffered_normalization.2.2.1
      [("content", Json.arr [Json.obj [("type", Json.str "text"), ("text", Json.str "ok")]])]
      [("type", Json.str "text"), ("text", Json.str "ok")] [] [] (Json.str "ok") rfl rfl⟩

/-- C10 (amended): an image url not starting with `data:image` is
converted to a url source carrying the url verbatim and contributes
zero to the size accounting (the validation state advances only in the
count); a `data:image` url containing a comma is converted to a base64
source; a base64 source can only arise from a `data:image` url with a
comma.  (As stated the claim is refuted by
`process_image_no_comma_counterexample`: a `data:image` url without a
comma is not converted at all - the unpacking raises `ValueError`.) -/
theorem process_image_source_kinds :
    (∀ u : String, isDataImage u.data = false → process_image u = .ok (.url u)) ∧
    (∀ (u : String) (mime b64 : List Char),
        isDataImage u.data = true → splitComma1 u.data = some (mime, b64) →
        process_image u = .ok (.base64 ⟨takeUntil ';' (segAfterFirst ':' mime)⟩ ⟨b64⟩)) ∧
    (∀ (u mt d : String), process_image u = .ok (.base64 mt d) →
        isDataImage u.data = true ∧ (splitComma1 u.data).isSome = true) ∧
    (∀ (u : String) (items : List ContentItem) (c t : Nat),
        isDataImage u.data = false → c < MAX_IMAGES_PER_CALL → t ≤ totalCap3 →
        processItems (.image_url u :: items) c t =
          (processItems items (c + 1) t).map (fun r => (.image (.url u) :: r.1, r.2))) := by
  refine ⟨process_image_url_kind, process_image_base64_kind, ?_, ?_⟩
  · intro u mt d h
    unfold process_image at h
    by_cases hdi : isDataImage u.data = true
    · refine ⟨hdi, ?_⟩
      rw [if_pos hdi] at h
      cases hsp : splitComma1 u.data with
      | none => rw [hsp] at h; exact absurd h (by simp)
      | some p => simp
    · rw [if_neg hdi] at h
      simp at h
  · intro u items c t hdi hc ht
    simp only [MAX_IMAGES_PER_CALL] at hc
    have hstep : imageStep u c t = .ok (.url u, c + 1, t + 0) := by
      simp only [imageStep, MAX_IMAGES_PER_CALL]
      rw [if_neg (by omega)]
      rw [process_image_url_kind u hdi]
      show (if t + 0 > totalCap3 then (Except.error totalSizeError :
            Except PyExn (ImageSource × Nat × Nat))
          else Except.ok (.url u, c + 1, t + 0)) = _
      rw [if_neg (by omega)]
    simp only [processItems]
    rw [hstep]
    rfl

/-- C10 counterexample: `data:image` (no comma) starts with the
base64 marker yet is not converted to any source kind - the two-target
unpacking fails with `ValueError`. -/
theorem process_image_no_comma_counterexample :
    isDataImage ("data:image" : String).data = true ∧
    process_image "data:image" =
      .error (.valueError "not enough values to unpack (expected 2, got 1)") :=
  ⟨rfl, rfl⟩

theorem process_image_source_kinds_witness :
    isDataImage ("https://example.com/cat.png" : String).data = false ∧
    process_image "https://example.com/cat.png" =
      .ok (.url "https://example.com/cat.png") :=
  ⟨rfl, process_image_source_kinds.1 "https://example.com/cat.png" rfl⟩

theorem msgContentLoop_spec (es : List Json) :
    ∀ acc, es.all goodEntry = true →
      msgContentLoop acc es = .emit (acc.reverse ++ es.filterMap specEntryText) := by
  induction es with
  | nil => intro acc _; simp [msgContentLoop]
  | cons e es ih =>
    intro acc hall
    simp only [List.all_cons, Bool.and_eq_true] at hall
    obtain ⟨he, hes⟩ := hall
    cases e with
    | obj kvs =>
      simp only [goodEntry] at he
      cases hty : Json.fieldLast kvs "type" with
      | none => rw [hty] at he; simp at he
      | some tv =>
        rw [hty] at he
        cases tv with
        | str s =>
          by_cases hs : s = "text"
          · subst hs
            cases htxt : Json.fieldLast kvs "text" with
            | none => rw [htxt] at he; simp at he
            | some t =>
              have hstep : msgContentLoop acc (Json.obj kvs :: es) =
                  msgContentLoop (t :: acc) es := by
                simp [msgContentLoop, hty, htxt]
              have hspec : specEntryText (Json.obj kvs) = some t := by
                simp [specEntryText, hty, htxt]
              rw [hstep, ih (t :: acc) hes, List.filterMap_cons, hspec]
              simp
          · have hstep : msgContentLoop acc (Json.obj kvs :: es) =
                msgContentLoop acc es := by
              simp [msgContentLoop, hty, hs]
            have hspec : specEntryText (Json.obj kvs) = none := by
              simp [specEntryText, hty, hs]
            rw [hstep, ih acc hes, List.filterMap_cons, hspec]
        | num raw =>
          have hstep : msgContentLoop acc (Json.obj kvs :: es) =
              msgContentLoop acc es := by simp [msgContentLoop, hty]
          have hspec : specEntryText (Json.obj kvs) = none := by
            simp [specEntryText, hty]
          rw [hstep, ih acc hes, List.filterMap_cons, hspec]
        | bool b =>
          have hstep : msgContentLoop acc (Json.obj kvs :: es) =
              msgContentLoop acc es := by simp [msgContentLoop, hty]
          have hspec : specEntryText (Json.obj kvs) = none := by
            simp [specEntryText, hty]
          rw [hstep, ih acc hes, List.filterMap_cons, hspec]
        | null =>
          have hstep : msgContentLoop acc (Json.obj kvs :: es) =
              msgContentLoop acc es := by simp [msgContentLoop, hty]
          have hspec : specEntryText (Json.obj kvs) = none := by
            simp [specEntryText, hty]
          rw [hstep, ih acc hes, List.filterMap_cons, hspec]
        | arr l =>
          have hstep : msgContentLoop acc (Json.obj kvs :: es) =
              msgContentLoop acc es := by simp [msgContentLoop, hty]
          have hspec : specEntryText (Json.obj kvs) = none := by
            simp [specEntryText, hty]
          rw [hstep, ih acc hes, List.filterMap_cons, hspec]
        | obj kvs2 =>
          have hstep : msgContentLoop acc (Json.obj kvs :: es) =
              msgContentLoop acc es := by simp [msgContentLoop, hty]
          have hspec : specEntryText (Json.obj kvs) = none := by
            simp [specEntryText, hty]
          rw [hstep, ih acc hes, List.filterMap_cons, hspec]
    | null => simp [goodEntry] at he
    | bool b => simp [goodEntry] at he
    | num raw => simp [goodEntry] at he
    | str s => simp [goodEntry] at he
    | arr l => simp [goodEntry] at he

theorem processData_agrees (j : Json) (h : goodJson j = true) :
    (processData j = .stop ∧ specData j = .halt) ∨
    (∃ ys, processData j = .emit ys ∧ specData j = .yields ys) := by
  cases j with
  | obj kvs =>
    simp only [goodJson] at h
    have hsf : ∀ k, specFieldOf (Json.obj kvs) k = Json.fieldLast kvs k := fun k => rfl
    cases hty : Json.fieldLast kvs "type" with
    | none =>
      right
      exact ⟨[], by simp [processData, hty], by simp [specData, specTypeOf, hsf, hty]⟩
    | some tv =>
      rw [hty] at h
      cases tv with
      | str t =>
        have hst : specTypeOf (Json.obj kvs) = some t := by
          simp [specTypeOf, hsf, hty]
        by_cases h1 : t = "content_block_start"
        · subst h1
          right
          cases hcb : Json.fieldLast kvs "content_block" with
          | none =>
            exact ⟨[], by simp [processData, hty, hcb],
              by simp [specData, hst, hsf, hcb]⟩
          | some cb =>
            cases cb with
            | obj cbkvs =>
              cases htxt : Json.fieldLast cbkvs "text" with
              | none =>
                exact ⟨[], by simp [processData, hty, hcb, htxt],
                  by simp [specData, hst, hsf, hcb, specFieldOf, htxt]⟩
              | some txt =>
                exact ⟨[txt], by simp [processData, hty, hcb, htxt],
                  by simp [specData, hst, hsf, hcb, specFieldOf, htxt]⟩
            | null => rw [hcb] at h; simp at h
            | bool b => rw [hcb] at h; simp at h
            | num raw => rw [hcb] at h; simp at h
            | str s => rw [hcb] at h; simp at h
            | arr l => rw [hcb] at h; simp at h
        · by_cases h2 : t = "content_block_delta"
          · subst h2
            right
            cases hcb : Json.fieldLast kvs "delta" with
            | none =>
              exact ⟨[], by simp [processData, hty, hcb],
                by simp [specData, hst, hsf, hcb]⟩
            | some cb =>
              cases cb with
              | obj cbkvs =>
                cases htxt : Json.fieldLast cbkvs "text" with
                | none =>
                  exact ⟨[], by simp [processData, hty, hcb, htxt],
                    by simp [specData, hst, hsf, hcb, specFieldOf, htxt]⟩
                | some txt =>
                  exact ⟨[txt], by simp [processData, hty, hcb, htxt],
                    by simp [specData, hst, hsf, hcb, specFieldOf, htxt]⟩
              | null => rw [hcb] at h; simp at h
              | bool b => rw [hcb] at h; simp at h
              | num raw => rw [hcb] at h; simp at h
              | str s => rw [hcb] at h; simp at h
              | arr l => rw [hcb] at h; simp at h
          · by_cases h3 : t = "message_stop"
            · subst h3
              left
              exact ⟨by simp [processData, hty], by simp [specData, hst]⟩
            · by_cases h4 : t = "message"
              · subst h4
                right
                cases hcv : Json.fieldLast kvs "content" with
                | none =>
                  refine ⟨[], ?_, ?_⟩
                  · simp [processData, hty, hcv, messageBranch, msgContentLoop]
                  · simp [specData, hst, hsf, hcv]
                | some cv =>
                  cases cv with
                  | arr es =>
                    have hall : es.all goodEntry = true := by
                      rw [hcv] at h
                      simpa using h
                    refine ⟨es.filterMap specEntryText, ?_, ?_⟩
                    · rw [show processData (Json.obj kvs) = msgContentLoop [] es from by
                        simp [processData, hty, hcv, messageBranch]]
                      rw [msgContentLoop_spec es [] hall]
                      simp
                    · simp [specData, hst, hsf, hcv]
                  | null => rw [hcv] at h; simp at h
                  | bool b => rw [hcv] at h; simp at h
                  | num raw => rw [hcv] at h; simp at h
                  | str s => rw [hcv] at h; simp at h
                  | obj kvs2 => rw [hcv] at h; simp at h
              · right
                exact ⟨[], by simp [processData, hty, h1, h2, h3, h4],
                  by simp [specData, hst, h1, h2, h3, h4]⟩
      | num raw =>
        right
        exact ⟨[], by simp [processData, hty], by simp [specData, specTypeOf, hsf, hty]⟩
      | bool b =>
        right
        exact ⟨[], by simp [processData, hty], by simp [specData, specTypeOf, hsf, hty]⟩
      | null =>
        right
        exact ⟨[], by simp [processData, hty], by simp [specData, specTypeOf, hsf, hty]⟩
      | arr l =>
        right
        exact ⟨[], by simp [processData, hty], by simp [specData, specTypeOf, hsf, hty]⟩
      | obj kvs2 =>
        right
        exact ⟨[], by simp [processData, hty], by simp [specData, specTypeOf, hsf, hty]⟩
  | null => simp [goodJson] at h
  | bool b => simp [goodJson] at h
  | num raw => simp [goodJson] at h
  | str s => simp [goodJson] at h
  | arr l => simp [goodJson] at h

theorem processChars_agrees (l : String) (h : goodLine l = true) :
    (processChars l.data = .stop ∧ specLine l = .halt) ∨
    (∃ ys, processChars l.data = .emit ys ∧ specLine l = .yields ys) := by
  unfold goodLine at h
  cases hdp : dataPayload l.data with
  | none =>
    right
    exact ⟨[], by simp [processChars, hdp], by simp [specLine, hdp]⟩
  | some rest =>
    rw [hdp] at h
    have h2 : (match jsonParseChars rest with
        | none => true
        | some j => goodJson j) = true := h
    cases hj : jsonParseChars rest with
    | none =>
      right
      exact ⟨[], by simp [processChars, hdp, hj], by simp [specLine, hdp, hj]⟩
    | some j =>
      rw [hj] at h2
      have hpd := processData_agrees j (by simpa using h2)
      have hpc : processChars l.data = processData j := by simp [processChars, hdp, hj]
      have hsl : specLine l = specData j := by simp [specLine, hdp, hj]
      rw [hpc, hsl]
      exact hpd

theorem streamLines_agrees (lines : List String) (h : lines.all goodLine = true) :
    streamLines lines = (specStream lines, false) := by
  induction lines with
  | nil => rfl
  | cons l ls ih =>
    simp only [List.all_cons, Bool.and_eq_true] at h
    obtain ⟨hl, hls⟩ := h
    rcases processChars_agrees l hl with ⟨hp, hs⟩ | ⟨ys, hp, hs⟩
    · simp [streamLines, specStream, hp, hs]
    · simp [streamLines, specStream, hp, hs, ih hls]

/-- C1 (amended): over any line sequence of well-shaped lines (blank,
non-`data: `, unparseable, or a payload whose nested fields are
well-shaped JSON, as captured by `goodLine`), the streamed normalizer
yields exactly what the specification's per-event description
(`specStream`) prescribes and terminates at `message_stop`:
`content_block_start` yields the block's initial text,
`content_block_delta` the delta fragment, `message` the text of each
text entry of its content array, every other event, blank line and
non-`data: ` line nothing; the spec's four-line example yields exactly
`He`, `llo` and stops before the post-stop line.  (As stated - with
`message`-type events yielding nothing - the claim is refuted by
`anthropic_stream_message_type_counterexample`; well-shapedness is
needed because a payload such as `data: 5` raises an uncaught
`TypeError` that aborts the generator.) -/
theorem anthropic_stream_normalizer :
    (∀ lines : List String, lines.all goodLine = true →
        streamLines lines = (specStream lines, false)) ∧
    streamLines exampleLines = ([Json.str "He", Json.str "llo"], false) :=
  ⟨streamLines_agrees, rfl⟩

theorem anthropic_stream_normalizer_witness :
    exampleLines.all goodLine = true ∧
    streamLines exampleLines = (specStream exampleLines, false) :=
  ⟨rfl, anthropic_stream_normalizer.1 exampleLines rfl⟩

/-- C1 counterexample: a `message`-type event - a type other than
`content_block_start`, `content_block_delta` and `message_stop` - does
not yield nothing: it yields the text of its content entries. -/
theorem anthropic_stream_message_type_counterexample :
    streamLines [msgTypeLine] = ([Json.str "X"], false) ∧
    (streamLines [msgTypeLine]).1 ≠ [] :=
  ⟨rfl, fun hcon => by
    rw [show streamLines [msgTypeLine] = ([Json.str "X"], false) from rfl] at hcon
    exact List.cons_ne_nil _ _ hcon⟩

theorem missingFieldEvent_skipped (j : Json) (h : missingFieldEvent j = true) :
    processData j = .emit [] := by
  cases j with
  | obj kvs =>
    simp only [missingFieldEvent] at h
    cases hty : Json.fieldLast kvs "type" with
    | none => simp [processData, hty]
    | some tv =>
      rw [hty] at h
      cases tv with
      | str t =>
        by_cases h1 : t = "content_block_start"
        · subst h1
          cases hcb : Json.fieldLast kvs "content_block" with
          | none => simp [processData, hty, hcb]
          | some cb =>
            cases cb with
            | obj cbkvs =>
              have htxt : Json.fieldLast cbkvs "text" = none := by
                rw [hcb] at h
                simpa [Option.isNone_iff_eq_none] using h
              simp [processData, hty, hcb, htxt]
            | null => rw [hcb] at h; simp at h
            | bool b => rw [hcb] at h; simp at h
            | num raw => rw [hcb] at h; simp at h
            | str s => rw [hcb] at h; simp at h
            | arr l => rw [hcb] at h; simp at h
        · by_cases h2 : t = "content_block_delta"
          · subst h2
            cases hcb : Json.fieldLast kvs "delta" with
            | none => simp [processData, hty, hcb]
            | some cb =>
              cases cb with
              | obj cbkvs =>
                have htxt : Json.fieldLast cbkvs "text" = none := by
                  rw [hcb] at h
                  simpa [Option.isNone_iff_eq_none] using h
                simp [processData, hty, hcb, htxt]
              | null => rw [hcb] at h; simp at h
              | bool b => rw [hcb] at h; simp at h
              | num raw => rw [hcb] at h; simp at h
              | str s => rw [hcb] at h; simp at h
              | arr l => rw [hcb] at h; simp at h
          · simp [h1, h2] at h
      | num raw => simp at h
      | bool b => simp at h
      | null => simp at h
      | arr l => simp at h
      | obj kvs2 => simp at h
  | null => simp [missingFieldEvent] at h
  | bool b => simp [missingFieldEvent] at h
  | num raw => simp [missingFieldEvent] at h
  | str s => simp [missingFieldEvent] at h
  | arr l => simp [missingFieldEvent] at h

theorem skippedDataLine_emits_nothing (l : String) (h : skippedDataLine l = true) :
    processChars l.data = .emit [] := by
  unfold skippedDataLine at h
  cases hdp : dataPayload l.data with
  | none => rw [hdp] at h; simp at h
  | some rest =>
    rw [hdp] at h
    have h2 : (match jsonParseChars rest with
        | none => true
        | some j => missingFieldEvent j) = true := h
    cases hj : jsonParseChars rest with
    | none => simp [processChars, hdp, hj]
    | some j =>
      rw [hj] at h2
      have h3 : missingFieldEvent j = true := by simpa using h2
      have hpc : processChars l.data = processData j := by simp [processChars, hdp, hj]
      rw [hpc]
      exact missingFieldEvent_skipped j h3

theorem streamLines_skip (l : String) (hl : processChars l.data = .emit []) :
    ∀ pre post, streamLines (pre ++ l :: post) = streamLines (pre ++ post) := by
  intro pre
  induction pre with
  | nil =>
    intro post
    simp [streamLines, hl]
  | cons p ps ih =>
    intro post
    show streamLines (p :: (ps ++ l :: post)) = streamLines (p :: (ps ++ post))
    cases hp : processChars p.data with
    | emit ys => simp [streamLines, hp, ih post]
    | stop => simp [streamLines, hp]
    | fatal ys => simp [streamLines, hp]

/-- C5 (amended): a `data: ` line whose payload is not valid JSON, or
whose parsed JSON object lacks an expected field (no `type`, or a
`content_block_start`/`content_block_delta` with a missing inner object
or missing `text`), is skipped without terminating the stream - the
surrounding lines produce exactly what they would produce without it;
a `message`-type event with a malformed later entry is not fully
skipped: it yields the text of the entries before the malformed one and
is then abandoned, also without terminating the stream.  (As stated -
requiring such lines to be skipped outright - the claim is refuted by
`stream_partial_message_counterexample`.) -/
theorem stream_malformed_line_skipped :
    (∀ (pre post : List String) (l : String), skippedDataLine l = true →
        streamLines (pre ++ l :: post) = streamLines (pre ++ post)) ∧
    processChars partialMsgLine.data = .emit [Json.str "A"] :=
  ⟨fun pre post l hl => streamLines_skip l (skippedDataLine_emits_nothing l hl) pre post,
    rfl⟩

theorem stream_malformed_line_skipped_witness :
    skippedDataLine "data: not-json" = true ∧
    streamLines [exLine1, "data: not-json", exLine2] = streamLines [exLine1, exLine2] :=
  ⟨rfl, stream_malformed_line_skipped.1 [exLine1] [exLine2] "data: not-json" rfl⟩

/-- C5 counterexample: a `message` event whose second entry lacks
`text` is not skipped: the line yields its first entry's text before
the `KeyError` abandons it, and the stream continues with the next
line. -/
theorem stream_partial_message_counterexample :
    streamLines [partialMsgLine, exLine1] = ([Json.str "A", Json.str "He"], false) ∧
    (streamLines [partialMsgLine, exLine1]).1 ≠ [Json.str "He"] :=
  ⟨rfl, fun hcon => by
    rw [show streamLines [partialMsgLine, exLine1] =
      ([Json.str "A", Json.str "He"], false) from rfl] at hcon
    simpa using congrArg List.length hcon⟩
